import Mathlib

/-
Shallow embedding of tensorrt_llm/_torch/pyexecutor/decoder.py.

The commit logic (TorchDecoder.update_requests and its helpers) is pure
bookkeeping over the per-request record and the flat new-token buffer, so it
embeds directly.  Score tensors are modelled over the rationals; the external
torch primitives softmax, log and multinomial are modelled by a weight
function e, a function logf and a per-row chooser sample, passed as
parameters.  Token rows of the per-step logits tensor are identified by their
row index, so a captured generation-logits slice is recorded as a pair
(start row, row count).
-/

set_option maxHeartbeats 1600000

namespace TorchDecoderModel

/-- Generation state of a request, mirroring LlmRequestState in llm_request.py. -/
inductive LlmRequestState where
  | CONTEXT_INIT
  | GENERATION_IN_PROGRESS
  | GENERATION_COMPLETE
  deriving DecidableEq, Repr, Inhabited

/-- Finish reason enumeration, mirroring FinishReason from the executor bindings. -/
inductive FinishReason where
  | NOT_FINISHED
  | END_ID
  | LENGTH
  | STOP_WORDS
  deriving DecidableEq, Repr, Inhabited

/-- Score tensors restricted to the one- and two-dimensional shapes handled by
the decoder.  A value of the form one v is a flat per-token score vector and
two m is a batch-by-vocabulary matrix. -/
inductive QTensor where
  | one (v : List ℚ)
  | two (m : List (List ℚ))
  deriving DecidableEq, Repr, Inhabited

/-- The fields of an LlmRequest that the decoder reads or writes.  Beam width
is 1 throughout TorchDecoder (beam_idx = 0), so the per-beam token sequence
and finish reason are stored for beam 0 only. -/
structure LlmRequest where
  state : LlmRequestState := .GENERATION_IN_PROGRESS
  tokens : List Int := []
  py_orig_prompt_len : Nat := 0
  py_max_new_tokens : Nat := 0
  py_end_id : Option Int := none
  py_stop_words_list : Option (List Int × List Nat) := none
  py_draft_tokens : Option (List Int) := none
  py_draft_pages_allocated : Nat := 0
  py_num_accepted_draft_tokens : Nat := 0
  py_rewind_len : Int := 0
  py_decoding_iter : Nat := 0
  context_remaining_length : Nat := 0
  finished_reason : FinishReason := .NOT_FINISHED
  py_return_generation_logits : Bool := false
  py_return_log_probs : Bool := false
  generation_logits_slices : List (Nat × Nat) := []
  py_result_context_logits : List QTensor := []
  deriving DecidableEq, Repr, Inhabited

/-- The scheduled batch: context requests, an optional chunked-context
collection (the source guards it with hasattr), and generation requests. -/
structure ScheduledRequests where
  context_requests : List LlmRequest := []
  chunked_requests : Option (List LlmRequest) := none
  generation_requests : List LlmRequest := []
  deriving DecidableEq, Repr, Inhabited

/-- The part of a DecoderState that update_requests reads: the host copy of
the flat new-token buffer and whether a logits tensor is present. -/
structure DecoderStateModel where
  new_tokens_host : List Int := []
  has_logits : Bool := false
  deriving DecidableEq, Repr, Inhabited

/-- LlmRequest.add_new_token for beam 0: append the token and return the new
request together with the new total token count. -/
def add_new_token (r : LlmRequest) (tok : Int) : LlmRequest × Nat :=
  ({ r with tokens := r.tokens ++ [tok] }, r.tokens.length + 1)

/-- TorchDecoder._meet_max_token_stop_criteria. -/
def meet_max_token_stop_criteria (maxSeq : Nat) (r : LlmRequest) (numTokens : Nat) : Bool :=
  decide ((numTokens : Int) - (r.py_orig_prompt_len : Int) ≥ (r.py_max_new_tokens : Int))
    || decide (numTokens ≥ maxSeq)

/-- TorchDecoder._meet_stop_token_criteria: the stop-word table is a flat
token list together with phrase boundaries; a phrase matches when it is no
longer than the beam-0 token sequence and equals its trailing sub-sequence.
An empty phrase compares the whole token sequence against the empty list,
as the Python slice tokens from index -0 does. -/
def meet_stop_token_criteria (r : LlmRequest) : Bool :=
  match r.py_stop_words_list with
  | none => false
  | some (stopWordsList, prefSum) =>
    (List.range prefSum.length).any (fun i =>
      let offset := if i = 0 then 0 else prefSum.getD (i - 1) 0
      let offsetEnd := prefSum.getD i 0
      let stopWord := (stopWordsList.drop offset).take (offsetEnd - offset)
      let tokens := r.tokens
      let trailing := if stopWord.length = 0 then tokens
                      else tokens.drop (tokens.length - stopWord.length)
      decide (stopWord.length ≤ tokens.length) && decide (trailing = stopWord))

/-- TorchDecoder._handle_stop_criteria: end-of-sequence id first, then the
length criteria, then stop words; the first matching rule completes the
request with its reason and evaluation stops. -/
def handle_stop_criteria (maxSeq : Nat) (r : LlmRequest) (newToken : Int) (numTokens : Nat) :
    LlmRequest × Bool :=
  if r.py_end_id = some newToken then
    ({ r with state := .GENERATION_COMPLETE, finished_reason := .END_ID }, true)
  else if meet_max_token_stop_criteria maxSeq r numTokens then
    ({ r with state := .GENERATION_COMPLETE, finished_reason := .LENGTH }, true)
  else if meet_stop_token_criteria r then
    ({ r with state := .GENERATION_COMPLETE, finished_reason := .STOP_WORDS }, true)
  else
    (r, false)

/-- The handle_logits closure of update_requests: when a logits tensor is
present and the request asks for generation logits or log probabilities,
record the captured row span (current token offset, count). -/
def handle_logits (dsm : DecoderStateModel) (tokenIdx : Nat) (r : LlmRequest) (count : Nat) :
    LlmRequest :=
  if !dsm.has_logits then r
  else if !r.py_return_generation_logits && !r.py_return_log_probs then r
  else { r with generation_logits_slices := r.generation_logits_slices ++ [(tokenIdx, count)] }

/-- The context-request body of update_requests: mid-prefill rows and
completed requests only advance the offset; otherwise commit the token at the
current offset, run stop criteria, capture logits, bump the iteration
counter, and advance by one row. -/
def process_context_request (maxSeq : Nat) (dsm : DecoderStateModel) (tokenIdx : Nat)
    (r : LlmRequest) : LlmRequest × Nat :=
  if r.context_remaining_length ≠ 0 then
    (r, tokenIdx + 1)
  else if r.state ≠ LlmRequestState.GENERATION_COMPLETE then
    let newToken := dsm.new_tokens_host.getD tokenIdx 0
    let rn := add_new_token r newToken
    let rs := handle_stop_criteria maxSeq rn.1 newToken rn.2
    let rl := handle_logits dsm tokenIdx rs.1 1
    ({ rl with py_decoding_iter := rl.py_decoding_iter + 1 }, tokenIdx + 1)
  else
    (r, tokenIdx + 1)

/-- The draft-acceptance loop of update_requests: walk the proposed draft
tokens; on the first draft that differs from the token just committed, stop;
otherwise bump the accepted count, commit the next buffer token, and stop
early when the stop criteria fire. -/
def accept_drafts (maxSeq : Nat) (buf : List Int) (tokenIdx : Nat) :
    List Int → LlmRequest → Int → Nat → LlmRequest × Nat
  | [], r, _, numAccepted => (r, numAccepted)
  | d :: ds, r, newToken, numAccepted =>
    if d ≠ newToken then
      (r, numAccepted)
    else
      let na := numAccepted + 1
      let nt := buf.getD (tokenIdx + na) 0
      let rn := add_new_token r nt
      let rs := handle_stop_criteria maxSeq rn.1 nt rn.2
      if rs.2 then
        (rs.1, na)
      else
        accept_drafts maxSeq buf tokenIdx ds rs.1 nt na

/-- The extend-request body of update_requests: commit the first sampled
token, run the draft-acceptance loop, capture logits for num_accepted rows,
record the accepted count and the rewind length, and advance the offset by
1 + len(draft_tokens) whether or not the request was already complete. -/
def process_extend_request (maxSeq : Nat) (dsm : DecoderStateModel) (tokenIdx : Nat)
    (r : LlmRequest) : LlmRequest × Nat :=
  let drafts := r.py_draft_tokens.getD []
  if r.state ≠ LlmRequestState.GENERATION_COMPLETE then
    let newToken := dsm.new_tokens_host.getD tokenIdx 0
    let rn := add_new_token r newToken
    let rs := handle_stop_criteria maxSeq rn.1 newToken rn.2
    let ra := accept_drafts maxSeq dsm.new_tokens_host tokenIdx drafts rs.1 newToken 0
    let rl := handle_logits dsm tokenIdx ra.1 ra.2
    ({ rl with py_decoding_iter := rl.py_decoding_iter + 1,
               py_num_accepted_draft_tokens := ra.2,
               py_rewind_len := (r.py_draft_pages_allocated : Int) - (ra.2 : Int) },
     tokenIdx + (drafts.length + 1))
  else
    (r, tokenIdx + (drafts.length + 1))

/-- The plain generation-request body of update_requests: identical to the
context body without the mid-prefill check. -/
def process_generation_request (maxSeq : Nat) (dsm : DecoderStateModel) (tokenIdx : Nat)
    (r : LlmRequest) : LlmRequest × Nat :=
  if r.state ≠ LlmRequestState.GENERATION_COMPLETE then
    let newToken := dsm.new_tokens_host.getD tokenIdx 0
    let rn := add_new_token r newToken
    let rs := handle_stop_criteria maxSeq rn.1 newToken rn.2
    let rl := handle_logits dsm tokenIdx rs.1 1
    ({ rl with py_decoding_iter := rl.py_decoding_iter + 1 }, tokenIdx + 1)
  else
    (r, tokenIdx + 1)

/-- Run one category loop of update_requests: process each request in order,
threading the running request index and token-row offset. -/
def run_requests (f : Nat → LlmRequest → LlmRequest × Nat) :
    List LlmRequest → Nat → Nat → List LlmRequest × Nat × Nat
  | [], requestIdx, tokenIdx => ([], requestIdx, tokenIdx)
  | r :: rs, requestIdx, tokenIdx =>
    let p := f tokenIdx r
    let q := run_requests f rs (requestIdx + 1) p.2
    (p.1 :: q.1, q.2.1, q.2.2)

/-- Number of chunked-context requests when the attribute is present. -/
def chunked_count (sr : ScheduledRequests) : Nat :=
  match sr.chunked_requests with
  | some l => l.length
  | none => 0

/-- Result of TorchDecoder.update_requests: the processed requests of each
category together with the final request index and token-row offset. -/
structure UpdateResult where
  context_requests : List LlmRequest
  extend_requests : List LlmRequest
  generation_requests : List LlmRequest
  request_idx : Nat
  token_idx : Nat
  deriving DecidableEq, Repr

/-- TorchDecoder.update_requests: walk context rows, skip the request index
past chunked requests, split generation requests into extend requests (draft
tokens present) and plain generation requests, and process the two groups in
that order with one running token-row offset. -/
def update_requests (maxSeq : Nat) (dsm : DecoderStateModel) (sr : ScheduledRequests) :
    UpdateResult :=
  let c := run_requests (process_context_request maxSeq dsm) sr.context_requests 0 0
  let afterChunked := c.2.1 + chunked_count sr
  let extendReqs := sr.generation_requests.filter (fun r => r.py_draft_tokens.isSome)
  let genReqs := sr.generation_requests.filter (fun r => !r.py_draft_tokens.isSome)
  let e := run_requests (process_extend_request maxSeq dsm) extendReqs afterChunked c.2.2
  let g := run_requests (process_generation_request maxSeq dsm) genReqs e.2.1 e.2.2
  { context_requests := c.1, extend_requests := e.1, generation_requests := g.1,
    request_idx := g.2.1, token_idx := g.2.2 }

/-- Length of the longest run of draft tokens that agree position by position
with the buffer tokens. -/
def matchLen : List Int → List Int → Nat
  | d :: ds, b :: bs => if d = b then matchLen ds bs + 1 else 0
  | _, _ => 0

/-- Softmax of a score row, with the torch exponential modelled by the weight
function e: each weight divided by the row sum of weights. -/
def softmaxQ (e : ℚ → ℚ) (row : List ℚ) : List ℚ :=
  let ws := row.map e
  ws.map (fun w => w / ws.sum)

/-- Insert a value into a descending-sorted list, keeping it sorted. -/
def insertDesc (x : ℚ) : List ℚ → List ℚ
  | [] => [x]
  | y :: ys => if x ≥ y then x :: y :: ys else y :: insertDesc x ys

/-- Sort a row in descending order. -/
def sortDesc : List ℚ → List ℚ
  | [] => []
  | x :: xs => insertDesc x (sortDesc xs)

/-- The k-th largest value of a row, the last entry of the values returned by
torch.topk with parameter k. -/
def kth_largest (row : List ℚ) (k : Nat) : ℚ :=
  (sortDesc row).getD (k - 1) 0

/-- The restricted distribution built by top_k_sampling_batch for one row:
entries strictly below the k-th largest score are masked to weight zero (the
-inf fill), and the remaining weights are renormalized. -/
def top_k_row_probs (e : ℚ → ℚ) (k : Nat) (row : List ℚ) : List ℚ :=
  let mv := kth_largest row k
  let ws := row.map (fun x => if x < mv then 0 else e x)
  ws.map (fun w => w / ws.sum)

/-- top_k_sampling_batch: a 1-D input is promoted to a single-row matrix;
the chooser sample draws one index per row from the restricted distribution;
the reported probability is gathered from the softmax of the original row
and logf models torch.log. -/
def top_k_sampling_batch (e logf : ℚ → ℚ) (sample : List ℚ → Nat) (k : Nat)
    (logits : QTensor) : List Nat × List ℚ :=
  let m := match logits with
    | .one v => [v]
    | .two mm => mm
  let nextTokens := m.map (fun row => sample (top_k_row_probs e k row))
  let tokenProbs := (m.zip nextTokens).map (fun p => (softmaxQ e p.1).getD p.2 0)
  (nextTokens, tokenProbs.map logf)

/-- Running cumulative sums of a row. -/
def cumsum (acc : ℚ) : List ℚ → List ℚ
  | [] => []
  | x :: xs => (acc + x) :: cumsum (acc + x) xs

/-- Insert a scored entry carrying its original position into a
descending-sorted list of such entries. -/
def insertDescPair (x : ℚ × Nat) : List (ℚ × Nat) → List (ℚ × Nat)
  | [] => [x]
  | y :: ys => if x.1 ≥ y.1 then x :: y :: ys else y :: insertDescPair x ys

/-- Sort scored entries in descending score order, the torch.sort primitive
returning sorted values together with their original indices. -/
def sortDescPairs : List (ℚ × Nat) → List (ℚ × Nat)
  | [] => []
  | x :: xs => insertDescPair x (sortDescPairs xs)

/-- The restricted distribution built by top_p_sampling_batch for one row:
sort descending with indices, take cumulative softmax, mark entries past the
top-p boundary (mask shifted right by one so the boundary element stays in),
scatter the marks back to the original positions, mask to weight zero, and
renormalize. -/
def top_p_row_probs (e : ℚ → ℚ) (p : ℚ) (row : List ℚ) : List ℚ :=
  let sorted := sortDescPairs (row.zip (List.range row.length))
  let sm := softmaxQ e (sorted.map (fun q => q.1))
  let cum := cumsum 0 sm
  let removeSorted := false :: (cum.map (fun c => decide (c > p))).dropLast
  let removeIdx := ((sorted.zip removeSorted).filter (fun q => q.2)).map (fun q => q.1.2)
  let ws := (row.zip (List.range row.length)).map
    (fun q => if removeIdx.contains q.2 then 0 else e q.1)
  ws.map (fun w => w / ws.sum)

/-- top_p_sampling_batch: a 1-D input is promoted to a single-row matrix;
sampling and probability reporting as in top_k_sampling_batch. -/
def top_p_sampling_batch (e logf : ℚ → ℚ) (sample : List ℚ → Nat) (p : ℚ)
    (logits : QTensor) : List Nat × List ℚ :=
  let m := match logits with
    | .one v => [v]
    | .two mm => mm
  let nextTokens := m.map (fun row => sample (top_p_row_probs e p row))
  let tokenProbs := (m.zip nextTokens).map (fun q => (softmaxQ e q.1).getD q.2 0)
  (nextTokens, tokenProbs.map logf)

/-- Index of the first maximal entry of a row, as torch.argmax along the last
dimension returns for a 2-D input row. -/
def argmaxIdx (row : List ℚ) : Nat :=
  ((row.zip (List.range row.length)).foldl
    (fun best q => if q.1 > best.1 then q else best) (row.getD 0 0, 0)).2

/-- greedy_search_sampling_batch: the source has no promotion branch for 1-D
input; on a 1-D tensor the calls next_tokens.unsqueeze(1) and torch.gather
along dim 1 raise, because after argmax there is no dimension 1, so the
embedding returns the corresponding error. -/
def greedy_search_sampling_batch (e logf : ℚ → ℚ) :
    QTensor → Except String (List Nat × List ℚ)
  | .one _ => .error "Dimension out of range: the input has no dim 1 to gather along"
  | .two m =>
    let nextTokens := m.map argmaxIdx
    let tokenProbs := (m.zip nextTokens).map (fun q => (softmaxQ e q.1).getD q.2 0)
    .ok (nextTokens, tokenProbs.map logf)

/-- Whether a tensor is one dimensional, the ndim == 1 test. -/
def is_one_dim : QTensor → Bool
  | .one _ => true
  | .two _ => false

/-- torch unsqueeze of the last axis applied to a 1-D tensor: a vector of
length n becomes an n-by-1 matrix. -/
def unsqueeze_last : QTensor → QTensor
  | .one v => .two (v.map (fun x => [x]))
  | .two m => .two m

/-- The per-request score tensor as stored by EarlyStopDecoder: the vocabulary
axis is added when the tensor is 1-D, otherwise it is kept as is. -/
def vocab_augment (l0 : QTensor) : QTensor :=
  if is_one_dim l0 then unsqueeze_last l0 else l0

/-- The loop body of EarlyStopDecoder.update_requests: each context request
is completed with reason LENGTH on beam 0 and receives its per-request score
tensor, vocabulary-augmented when it is 1-D, as context logits. -/
def early_stop_step (logits : List QTensor) : Nat → List LlmRequest → List LlmRequest
  | _, [] => []
  | idx, r :: rs =>
    { r with state := .GENERATION_COMPLETE,
             finished_reason := .LENGTH,
             py_result_context_logits := r.py_result_context_logits
               ++ [vocab_augment (logits.getD idx (QTensor.two []))] }
      :: early_stop_step logits (idx + 1) rs

/-- EarlyStopDecoder.update_requests: assert that the generation-request
collection is empty, then process every context request. -/
def early_stop_update_requests (logits : List QTensor) (sr : ScheduledRequests) :
    Except String (List LlmRequest) :=
  if sr.generation_requests.isEmpty then
    .ok (early_stop_step logits 0 sr.context_requests)
  else
    .error "assert not scheduled_requests.generation_requests"

/-- Row production of TorchDecoder._mixed_decode: one token row is emitted
per context request and one per generation request whose state is not
GENERATION_COMPLETE; completed generation requests are skipped by the
continue statement and emit no row. -/
def mixed_decode_emitted_rows (sr : ScheduledRequests) : Nat :=
  sr.context_requests.length
    + (sr.generation_requests.filter
        (fun r => decide (r.state ≠ LlmRequestState.GENERATION_COMPLETE))).length

/-- Modelled from the spec: the total row count each category of the batch
is claimed to consume, one row per context request, one per chunked-context
request, 1 + len(draft_tokens) per extend request and one per plain
generation request. -/
def claimed_row_total (sr : ScheduledRequests) : Nat :=
  sr.context_requests.length + chunked_count sr
    + (((sr.generation_requests.filter (fun r => r.py_draft_tokens.isSome)).map
          (fun r => (r.py_draft_tokens.getD []).length + 1)).sum)
    + (sr.generation_requests.filter (fun r => !r.py_draft_tokens.isSome)).length

/-! Helper lemmas about the stop criteria and the commit helpers. -/

lemma meet_max_iff (maxSeq : Nat) (r : LlmRequest) (n : Nat) :
    meet_max_token_stop_criteria maxSeq r n = true ↔
      ((n : Int) - (r.py_orig_prompt_len : Int) ≥ (r.py_max_new_tokens : Int) ∨ n ≥ maxSeq) := by
  simp [meet_max_token_stop_criteria]

lemma meet_stop_token_none (r : LlmRequest) (h : r.py_stop_words_list = none) :
    meet_stop_token_criteria r = false := by
  simp [meet_stop_token_criteria, h]

lemma handle_stop_criteria_no_stop (maxSeq : Nat) (r : LlmRequest) (tok : Int) (n : Nat)
    (hend : r.py_end_id = none) (hsw : r.py_stop_words_list = none)
    (h1 : (n : Int) - (r.py_orig_prompt_len : Int) < (r.py_max_new_tokens : Int))
    (h2 : n < maxSeq) :
    handle_stop_criteria maxSeq r tok n = (r, false) := by
  have hm : meet_max_token_stop_criteria maxSeq r n = false := by
    rw [Bool.eq_false_iff]
    intro hc
    rcases (meet_max_iff maxSeq r n).mp hc with h | h
    · omega
    · omega
  simp [handle_stop_criteria, hend, hm, meet_stop_token_none r hsw]

lemma handle_stop_criteria_shape (maxSeq : Nat) (r : LlmRequest) (tok : Int) (n : Nat) :
    ∃ st fr, (handle_stop_criteria maxSeq r tok n).1
      = { r with state := st, finished_reason := fr } := by
  unfold handle_stop_criteria
  by_cases h1 : r.py_end_id = some tok
  · exact ⟨.GENERATION_COMPLETE, .END_ID, by simp [h1]⟩
  · by_cases h2 : meet_max_token_stop_criteria maxSeq r n
    · exact ⟨.GENERATION_COMPLETE, .LENGTH, by simp [h1, h2]⟩
    · by_cases h3 : meet_stop_token_criteria r
      · exact ⟨.GENERATION_COMPLETE, .STOP_WORDS, by simp [h1, h2, h3]⟩
      · exact ⟨r.state, r.finished_reason, by simp [h1, h2, h3]⟩

lemma handle_logits_shape (dsm : DecoderStateModel) (t : Nat) (r : LlmRequest) (c : Nat) :
    ∃ s, handle_logits dsm t r c = { r with generation_logits_slices := s } := by
  unfold handle_logits
  by_cases h1 : dsm.has_logits
  · by_cases h2 : !r.py_return_generation_logits && !r.py_return_log_probs
    · exact ⟨r.generation_logits_slices, by simp [h1, h2]⟩
    · exact ⟨r.generation_logits_slices ++ [(t, c)], by simp [h1, h2]⟩
  · exact ⟨r.generation_logits_slices, by simp [h1]⟩

lemma handle_logits_on (dsm : DecoderStateModel) (t : Nat) (r : LlmRequest) (c : Nat)
    (h1 : dsm.has_logits = true) (h2 : r.py_return_generation_logits = true) :
    handle_logits dsm t r c
      = { r with generation_logits_slices := r.generation_logits_slices ++ [(t, c)] } := by
  simp [handle_logits, h1, h2]

/-! The category loops, their offsets and their effect on each request. -/

lemma process_context_request_offset (maxSeq : Nat) (dsm : DecoderStateModel)
    (t : Nat) (r : LlmRequest) :
    (process_context_request maxSeq dsm t r).2 = t + 1 := by
  unfold process_context_request
  split
  · rfl
  · split <;> rfl

lemma process_generation_request_offset (maxSeq : Nat) (dsm : DecoderStateModel)
    (t : Nat) (r : LlmRequest) :
    (process_generation_request maxSeq dsm t r).2 = t + 1 := by
  unfold process_generation_request
  split <;> rfl

lemma process_extend_request_offset (maxSeq : Nat) (dsm : DecoderStateModel)
    (t : Nat) (r : LlmRequest) :
    (process_extend_request maxSeq dsm t r).2 = t + ((r.py_draft_tokens.getD []).length + 1) := by
  unfold process_extend_request
  split <;> rfl

lemma run_requests_request_idx (f : Nat → LlmRequest → LlmRequest × Nat) :
    ∀ (rs : List LlmRequest) (ridx tidx : Nat),
      (run_requests f rs ridx tidx).2.1 = ridx + rs.length
  | [], _, _ => by simp [run_requests]
  | _ :: rs, ridx, tidx => by
    simp only [run_requests]
    rw [run_requests_request_idx f rs]
    simp
    omega

lemma run_requests_token_idx (f : Nat → LlmRequest → LlmRequest × Nat)
    (adv : LlmRequest → Nat) (hf : ∀ t r, (f t r).2 = t + adv r) :
    ∀ (rs : List LlmRequest) (ridx tidx : Nat),
      (run_requests f rs ridx tidx).2.2 = tidx + (rs.map adv).sum
  | [], _, _ => by simp [run_requests]
  | r :: rs, ridx, tidx => by
    simp only [run_requests]
    rw [run_requests_token_idx f adv hf rs, hf]
    simp
    omega

lemma run_requests_forall₂ (f : Nat → LlmRequest → LlmRequest × Nat)
    (P : LlmRequest → LlmRequest → Prop) (hf : ∀ t r, P r (f t r).1) :
    ∀ (rs : List LlmRequest) (ridx tidx : Nat),
      List.Forall₂ P rs (run_requests f rs ridx tidx).1
  | [], _, _ => List.Forall₂.nil
  | r :: rs, ridx, tidx =>
    List.Forall₂.cons (hf _ r) (run_requests_forall₂ f P hf rs _ _)

lemma sum_map_one (rs : List LlmRequest) : (rs.map (fun _ => (1 : Nat))).sum = rs.length := by
  induction rs with
  | nil => rfl
  | cons _ _ ih => simp [ih]; omega

/-! Claim theorems. -/

/-- C2: stop-criteria evaluation checks the end-of-sequence id, then the
length limit, then the stop-word suffix, in that order; the first matching
rule completes the request with its reason and evaluation stops there, a
token equal to the end-of-sequence id always yields END_ID even when the
other criteria also hold, and when no rule matches the request remains
GENERATION_IN_PROGRESS. -/
theorem c2_stop_criteria_precedence (maxSeq : Nat) (r : LlmRequest) (tok : Int) (n : Nat)
    (hst : r.state = LlmRequestState.GENERATION_IN_PROGRESS) :
    (r.py_end_id = some tok →
      handle_stop_criteria maxSeq r tok n
        = ({ r with state := .GENERATION_COMPLETE, finished_reason := .END_ID }, true))
    ∧ (r.py_end_id ≠ some tok → meet_max_token_stop_criteria maxSeq r n = true →
      handle_stop_criteria maxSeq r tok n
        = ({ r with state := .GENERATION_COMPLETE, finished_reason := .LENGTH }, true))
    ∧ (r.py_end_id ≠ some tok → meet_max_token_stop_criteria maxSeq r n = false →
        meet_stop_token_criteria r = true →
      handle_stop_criteria maxSeq r tok n
        = ({ r with state := .GENERATION_COMPLETE, finished_reason := .STOP_WORDS }, true))
    ∧ (r.py_end_id ≠ some tok → meet_max_token_stop_criteria maxSeq r n = false →
        meet_stop_token_criteria r = false →
      handle_stop_criteria maxSeq r tok n = (r, false)
        ∧ (handle_stop_criteria maxSeq r tok n).1.state
            = LlmRequestState.GENERATION_IN_PROGRESS) := by
  refine ⟨?_, ?_, ?_, ?_⟩
  · intro h1
    simp [handle_stop_criteria, h1]
  · intro h1 h2
    simp [handle_stop_criteria, h1, h2]
  · intro h1 h2 h3
    simp [handle_stop_criteria, h1, h2, h3]
  · intro h1 h2 h3
    refine ⟨by simp [handle_stop_criteria, h1, h2, h3], ?_⟩
    simp [handle_stop_criteria, h1, h2, h3, hst]

def rC2 : LlmRequest := { py_end_id := some 7, py_max_new_tokens := 0 }

theorem c2_witness :
    rC2.state = LlmRequestState.GENERATION_IN_PROGRESS
    ∧ rC2.py_end_id = some 7
    ∧ meet_max_token_stop_criteria 100 rC2 5 = true
    ∧ handle_stop_criteria 100 rC2 7 5
        = ({ rC2 with state := .GENERATION_COMPLETE, finished_reason := .END_ID }, true) :=
  ⟨rfl, rfl, by decide, (c2_stop_criteria_precedence 100 rC2 7 5 rfl).1 rfl⟩

/-- C4: with no end-of-sequence match and no stop-word match, the stop
criteria complete the request with reason LENGTH exactly when the new total
token count minus the original prompt length reaches the maximum new-token
count or the new total reaches the global maximum sequence length, and when
neither disjunct holds the request is left unchanged and in progress. -/
theorem c4_length_boundary (maxSeq : Nat) (r : LlmRequest) (tok : Int) (n : Nat)
    (hend : r.py_end_id ≠ some tok)
    (hsw : meet_stop_token_criteria r = false)
    (hst : r.state = LlmRequestState.GENERATION_IN_PROGRESS) :
    (handle_stop_criteria maxSeq r tok n
        = ({ r with state := .GENERATION_COMPLETE, finished_reason := .LENGTH }, true)
      ↔ ((n : Int) - (r.py_orig_prompt_len : Int) ≥ (r.py_max_new_tokens : Int) ∨ n ≥ maxSeq))
    ∧ (¬ ((n : Int) - (r.py_orig_prompt_len : Int) ≥ (r.py_max_new_tokens : Int) ∨ n ≥ maxSeq) →
        handle_stop_criteria maxSeq r tok n = (r, false)
        ∧ (handle_stop_criteria maxSeq r tok n).1.state
            = LlmRequestState.GENERATION_IN_PROGRESS) := by
  constructor
  · by_cases hm : meet_max_token_stop_criteria maxSeq r n
    · have := (meet_max_iff maxSeq r n).mp hm
      simp [handle_stop_criteria, hend, hm, this]
    · have hr : ¬ ((n : Int) - (r.py_orig_prompt_len : Int) ≥ (r.py_max_new_tokens : Int)
          ∨ n ≥ maxSeq) := by
        intro hc
        exact hm ((meet_max_iff maxSeq r n).mpr hc)
      simp only [handle_stop_criteria, if_neg hend, Bool.not_eq_true] at *
      simp [hm, hsw, hr]
  · intro hr
    have hm : meet_max_token_stop_criteria maxSeq r n = false := by
      rw [Bool.eq_false_iff]
      intro hc
      exact hr ((meet_max_iff maxSeq r n).mp hc)
    refine ⟨by simp [handle_stop_criteria, hend, hm, hsw], ?_⟩
    simp [handle_stop_criteria, hend, hm, hsw, hst]

def rC4 : LlmRequest := { py_orig_prompt_len := 2, py_max_new_tokens := 3 }

theorem c4_witness :
    rC4.py_end_id ≠ some 9
    ∧ meet_stop_token_criteria rC4 = false
    ∧ ((5 : Int) - (rC4.py_orig_prompt_len : Int) ≥ (rC4.py_max_new_tokens : Int) ∨ 5 ≥ 100)
    ∧ handle_stop_criteria 100 rC4 9 5
        = ({ rC4 with state := .GENERATION_COMPLETE, finished_reason := .LENGTH }, true) :=
  ⟨by decide, by decide, by decide,
    ((c4_length_boundary 100 rC4 9 5 (by decide) (by decide) rfl).1).mpr (by decide)⟩

def reqDone : LlmRequest := { state := .GENERATION_COMPLETE }

def reqLive : LlmRequest := {}

def srBug : ScheduledRequests := { generation_requests := [reqDone, reqLive] }

/-- C10: code bug exhibited at a concrete batch: in mixed per-request mode
the producer _mixed_decode skips the generation request that is already
GENERATION_COMPLETE and emits 1 token row for this two-request batch, while
the consumer update_requests advances its token-row offset by 2, one row per
generation request whether complete or not, so the consumer walks one row
past the produced buffer. -/
theorem c10_mixed_decode_misalignment :
    mixed_decode_emitted_rows srBug = 1
    ∧ (update_requests 100 { new_tokens_host := [42] } srBug).token_idx = 2
    ∧ mixed_decode_emitted_rows srBug
        < (update_requests 100 { new_tokens_host := [42] } srBug).token_idx := by
  refine ⟨rfl, rfl, by decide⟩

lemma handle_stop_criteria_tokens (maxSeq : Nat) (r : LlmRequest) (tok : Int) (n : Nat) :
    ((handle_stop_criteria maxSeq r tok n).1).tokens = r.tokens := by
  obtain ⟨st, fr, h⟩ := handle_stop_criteria_shape maxSeq r tok n
  rw [h]

lemma handle_logits_tokens (dsm : DecoderStateModel) (t : Nat) (r : LlmRequest) (c : Nat) :
    (handle_logits dsm t r c).tokens = r.tokens := by
  obtain ⟨s, h⟩ := handle_logits_shape dsm t r c
  rw [h]

lemma process_context_request_complete (maxSeq : Nat) (dsm : DecoderStateModel)
    (t : Nat) (r : LlmRequest) (h : r.state = LlmRequestState.GENERATION_COMPLETE) :
    (process_context_request maxSeq dsm t r).1 = r := by
  simp [process_context_request, h]

lemma process_generation_request_complete (maxSeq : Nat) (dsm : DecoderStateModel)
    (t : Nat) (r : LlmRequest) (h : r.state = LlmRequestState.GENERATION_COMPLETE) :
    (process_generation_request maxSeq dsm t r).1 = r := by
  simp [process_generation_request, h]

lemma process_extend_request_complete (maxSeq : Nat) (dsm : DecoderStateModel)
    (t : Nat) (r : LlmRequest) (h : r.state = LlmRequestState.GENERATION_COMPLETE) :
    (process_extend_request maxSeq dsm t r).1 = r := by
  simp [process_extend_request, h]

lemma process_context_request_tokens (maxSeq : Nat) (dsm : DecoderStateModel)
    (t : Nat) (r : LlmRequest) :
    ∃ s, (process_context_request maxSeq dsm t r).1.tokens = r.tokens ++ s := by
  unfold process_context_request
  split
  · exact ⟨[], by simp⟩
  · split
    · refine ⟨[dsm.new_tokens_host.getD t 0], ?_⟩
      dsimp only
      rw [handle_logits_tokens, handle_stop_criteria_tokens]
      simp [add_new_token]
    · exact ⟨[], by simp⟩

lemma process_generation_request_tokens (maxSeq : Nat) (dsm : DecoderStateModel)
    (t : Nat) (r : LlmRequest) :
    ∃ s, (process_generation_request maxSeq dsm t r).1.tokens = r.tokens ++ s := by
  unfold process_generation_request
  split
  · refine ⟨[dsm.new_tokens_host.getD t 0], ?_⟩
    dsimp only
    rw [handle_logits_tokens, handle_stop_criteria_tokens]
    simp [add_new_token]
  · exact ⟨[], by simp⟩

lemma accept_drafts_tokens (maxSeq : Nat) (buf : List Int) (t : Nat) (ds : List Int) :
    ∀ (r : LlmRequest) (nt : Int) (na : Nat),
      ∃ s, (accept_drafts maxSeq buf t ds r nt na).1.tokens = r.tokens ++ s := by
  induction ds with
  | nil =>
    intro r nt na
    exact ⟨[], by simp [accept_drafts]⟩
  | cons d ds ih =>
    intro r nt na
    rw [accept_drafts]
    split
    · exact ⟨[], by simp⟩
    · dsimp only
      split
      · refine ⟨[buf.getD (t + (na + 1)) 0], ?_⟩
        rw [handle_stop_criteria_tokens]
        simp [add_new_token]
      · obtain ⟨s, hs⟩ := ih _ _ _
        refine ⟨buf.getD (t + (na + 1)) 0 :: s, ?_⟩
        rw [hs, handle_stop_criteria_tokens]
        simp [add_new_token]

lemma process_extend_request_tokens (maxSeq : Nat) (dsm : DecoderStateModel)
    (t : Nat) (r : LlmRequest) :
    ∃ s, (process_extend_request maxSeq dsm t r).1.tokens = r.tokens ++ s := by
  unfold process_extend_request
  split
  · dsimp only
    rw [handle_logits_tokens]
    obtain ⟨s, hs⟩ := accept_drafts_tokens maxSeq dsm.new_tokens_host t
      (r.py_draft_tokens.getD []) _ _ _
    rw [hs, handle_stop_criteria_tokens]
    exact ⟨dsm.new_tokens_host.getD t 0 :: s, by simp [add_new_token]⟩
  · exact ⟨[], by simp⟩

/-- Relation between a scheduled request and its processed version: a request
already complete is returned untouched, and otherwise the beam-0 token
sequence only grows by appending a suffix. -/
def commit_preserves (r r' : LlmRequest) : Prop :=
  (r.state = LlmRequestState.GENERATION_COMPLETE → r' = r) ∧ ∃ s, r'.tokens = r.tokens ++ s

lemma process_context_request_preserves (maxSeq : Nat) (dsm : DecoderStateModel)
    (t : Nat) (r : LlmRequest) :
    commit_preserves r (process_context_request maxSeq dsm t r).1 :=
  ⟨process_context_request_complete maxSeq dsm t r, process_context_request_tokens maxSeq dsm t r⟩

lemma process_generation_request_preserves (maxSeq : Nat) (dsm : DecoderStateModel)
    (t : Nat) (r : LlmRequest) :
    commit_preserves r (process_generation_request maxSeq dsm t r).1 :=
  ⟨process_generation_request_complete maxSeq dsm t r,
   process_generation_request_tokens maxSeq dsm t r⟩

lemma process_extend_request_preserves (maxSeq : Nat) (dsm : DecoderStateModel)
    (t : Nat) (r : LlmRequest) :
    commit_preserves r (process_extend_request maxSeq dsm t r).1 :=
  ⟨process_extend_request_complete maxSeq dsm t r, process_extend_request_tokens maxSeq dsm t r⟩

/-- C6: a request already in GENERATION_COMPLETE when its row is processed by
update_requests is returned untouched, with no token appended and no
decoding-iteration increment, and every request of the batch only ever grows
its beam-0 token sequence by appending, so the length is monotonically
non-decreasing and stops growing once the request is complete. -/
theorem c6_completed_request_noop (maxSeq : Nat) (dsm : DecoderStateModel)
    (sr : ScheduledRequests) :
    List.Forall₂ commit_preserves sr.context_requests
      (update_requests maxSeq dsm sr).context_requests
    ∧ List.Forall₂ commit_preserves
        (sr.generation_requests.filter (fun r => r.py_draft_tokens.isSome))
        (update_requests maxSeq dsm sr).extend_requests
    ∧ List.Forall₂ commit_preserves
        (sr.generation_requests.filter (fun r => !r.py_draft_tokens.isSome))
        (update_requests maxSeq dsm sr).generation_requests :=
  ⟨run_requests_forall₂ _ _ (process_context_request_preserves maxSeq dsm) _ _ _,
   run_requests_forall₂ _ _ (process_extend_request_preserves maxSeq dsm) _ _ _,
   run_requests_forall₂ _ _ (process_generation_request_preserves maxSeq dsm) _ _ _⟩

def srChunk : ScheduledRequests := { chunked_requests := some [reqLive] }

/-- C3 counterexample: a batch holding a single chunked-context request and
nothing else.  The claim prescribes one token row per chunked-context
request, a total of one row, but update_requests leaves the token-row offset
at zero: the chunked collection advances only the per-request index. -/
theorem c3_counterexample :
    (update_requests 10 {} srChunk).token_idx = 0
    ∧ claimed_row_total srChunk = 1
    ∧ (update_requests 10 {} srChunk).token_idx ≠ claimed_row_total srChunk := by
  refine ⟨rfl, rfl, by decide⟩

/-- C3 amended: the running token-row offset advances by one row per context
request (mid-prefill and completed ones included), by zero rows per
chunked-context request (those advance only the per-request index), by
1 + len(draft_tokens) rows per extend request, and by one row per plain
generation request; the final request index counts every request of all four
categories. -/
theorem c3_row_offset_conservation (maxSeq : Nat) (dsm : DecoderStateModel)
    (sr : ScheduledRequests) :
    (update_requests maxSeq dsm sr).token_idx
      = sr.context_requests.length
        + (((sr.generation_requests.filter (fun r => r.py_draft_tokens.isSome)).map
              (fun r => (r.py_draft_tokens.getD []).length + 1)).sum)
        + (sr.generation_requests.filter (fun r => !r.py_draft_tokens.isSome)).length
    ∧ (update_requests maxSeq dsm sr).request_idx
      = sr.context_requests.length + chunked_count sr
        + (sr.generation_requests.filter (fun r => r.py_draft_tokens.isSome)).length
        + (sr.generation_requests.filter (fun r => !r.py_draft_tokens.isSome)).length := by
  constructor
  · simp only [update_requests]
    rw [run_requests_token_idx _ (fun _ => 1) (process_generation_request_offset maxSeq dsm),
        run_requests_token_idx _ (fun r => (r.py_draft_tokens.getD []).length + 1)
          (process_extend_request_offset maxSeq dsm),
        run_requests_token_idx _ (fun _ => 1) (process_context_request_offset maxSeq dsm),
        sum_map_one, sum_map_one]
    omega
  · simp only [update_requests]
    rw [run_requests_request_idx, run_requests_request_idx, run_requests_request_idx]
    omega

lemma drop_cons_of_lt (buf : List Int) (n : Nat) (h : n < buf.length) :
    buf.drop n = buf.getD n 0 :: buf.drop (n + 1) := by
  rw [List.getD_eq_getElem buf 0 h]
  exact List.drop_eq_getElem_cons h

lemma matchLen_le_left : ∀ (ds bs : List Int), matchLen ds bs ≤ ds.length
  | [], _ => by simp [matchLen]
  | _ :: _, [] => by simp [matchLen]
  | d :: ds, b :: bs => by
    rw [matchLen]
    split
    · have := matchLen_le_left ds bs
      simp
      omega
    · simp

lemma handle_logits_slices (dsm : DecoderStateModel) (t : Nat) (r : LlmRequest) (c : Nat) :
    (handle_logits dsm t r c).generation_logits_slices
      = if dsm.has_logits && (r.py_return_generation_logits || r.py_return_log_probs)
        then r.generation_logits_slices ++ [(t, c)]
        else r.generation_logits_slices := by
  unfold handle_logits
  by_cases h1 : dsm.has_logits <;> by_cases h2 : r.py_return_generation_logits <;>
    by_cases h3 : r.py_return_log_probs <;> simp [h1, h2, h3]

lemma accept_drafts_spec (maxSeq : Nat) (buf : List Int) (t : Nat) (ds : List Int) :
    ∀ (r : LlmRequest) (na : Nat),
      r.py_end_id = none →
      r.py_stop_words_list = none →
      (r.tokens.length : Int) + ds.length - (r.py_orig_prompt_len : Int)
          < (r.py_max_new_tokens : Int) →
      r.tokens.length + ds.length < maxSeq →
      t + na + ds.length < buf.length →
      accept_drafts maxSeq buf t ds r (buf.getD (t + na) 0) na
        = ({ r with tokens := r.tokens
              ++ (buf.drop (t + na + 1)).take (matchLen ds (buf.drop (t + na))) },
           na + matchLen ds (buf.drop (t + na))) := by
  induction ds with
  | nil =>
    intro r na _ _ _ _ _
    simp [accept_drafts, matchLen]
  | cons d ds ih =>
    intro r na hend hsw h1 h2 hbuf
    have hlen : (d :: ds).length = ds.length + 1 := by simp
    rw [hlen] at h1 h2 hbuf
    have htna : t + na < buf.length := by omega
    have htna1 : t + na + 1 < buf.length := by omega
    have hdropA : buf.drop (t + na) = buf.getD (t + na) 0 :: buf.drop (t + na + 1) :=
      drop_cons_of_lt buf (t + na) htna
    rw [accept_drafts]
    by_cases hdm : d = buf.getD (t + na) 0
    · rw [if_neg (not_not_intro hdm)]
      dsimp only
      simp only [← Nat.add_assoc]
      have hns : handle_stop_criteria maxSeq
            (add_new_token r (buf.getD (t + na + 1) 0)).1
            (buf.getD (t + na + 1) 0)
            (add_new_token r (buf.getD (t + na + 1) 0)).2
          = ((add_new_token r (buf.getD (t + na + 1) 0)).1, false) := by
        apply handle_stop_criteria_no_stop
        · simp [add_new_token, hend]
        · simp [add_new_token, hsw]
        · simp only [add_new_token]
          push_cast
          push_cast at h1
          omega
        · simp only [add_new_token]
          omega
      rw [hns]
      rw [if_neg (by simp)]
      have hrec := ih (add_new_token r (buf.getD (t + na + 1) 0)).1 (na + 1)
        (by simp [add_new_token, hend]) (by simp [add_new_token, hsw])
        (by simp [add_new_token]; push_cast; push_cast at h1; omega)
        (by simp [add_new_token]; omega)
        (by omega)
      simp only [← Nat.add_assoc] at hrec
      rw [hrec]
      have hdropB : buf.drop (t + na + 1)
          = buf.getD (t + na + 1) 0 :: buf.drop (t + na + 1 + 1) :=
        drop_cons_of_lt buf (t + na + 1) htna1
      have hm : matchLen (d :: ds) (buf.drop (t + na))
          = matchLen ds (buf.drop (t + na + 1)) + 1 := by
        rw [hdropA, matchLen, if_pos hdm]
      rw [hm]
      refine Prod.ext ?_ ?_
      · have htk : (buf.drop (t + na + 1)).take (matchLen ds (buf.drop (t + na + 1)) + 1)
            = buf.getD (t + na + 1) 0
                :: (buf.drop (t + na + 1 + 1)).take (matchLen ds (buf.drop (t + na + 1))) := by
          rw [hdropB, List.take_succ_cons]
        dsimp only
        rw [htk]
        simp [add_new_token, List.append_assoc]
      · dsimp only
        omega
    · rw [if_pos hdm]
      have hm : matchLen (d :: ds) (buf.drop (t + na)) = 0 := by
        rw [hdropA, matchLen, if_neg hdm]
      rw [hm]
      simp

lemma process_extend_request_spec (maxSeq : Nat) (dsm : DecoderStateModel) (t : Nat)
    (r : LlmRequest) (drafts : List Int)
    (hd : r.py_draft_tokens = some drafts)
    (hst : r.state ≠ LlmRequestState.GENERATION_COMPLETE)
    (hend : r.py_end_id = none)
    (hsw : r.py_stop_words_list = none)
    (hb1 : (r.tokens.length : Int) + drafts.length + 1 - (r.py_orig_prompt_len : Int)
        < (r.py_max_new_tokens : Int))
    (hb2 : r.tokens.length + drafts.length + 1 < maxSeq)
    (hbuf : t + drafts.length < dsm.new_tokens_host.length) :
    (process_extend_request maxSeq dsm t r).1.tokens
        = r.tokens ++ (dsm.new_tokens_host.drop t).take
            (matchLen drafts (dsm.new_tokens_host.drop t) + 1)
    ∧ (process_extend_request maxSeq dsm t r).1.py_num_accepted_draft_tokens
        = matchLen drafts (dsm.new_tokens_host.drop t)
    ∧ (process_extend_request maxSeq dsm t r).1.py_rewind_len
        = (r.py_draft_pages_allocated : Int)
            - (matchLen drafts (dsm.new_tokens_host.drop t) : Int)
    ∧ (process_extend_request maxSeq dsm t r).1.py_decoding_iter = r.py_decoding_iter + 1
    ∧ (process_extend_request maxSeq dsm t r).1.generation_logits_slices
        = (if dsm.has_logits
              && (r.py_return_generation_logits || r.py_return_log_probs)
           then r.generation_logits_slices
                  ++ [(t, matchLen drafts (dsm.new_tokens_host.drop t))]
           else r.generation_logits_slices)
    ∧ (process_extend_request maxSeq dsm t r).2 = t + (drafts.length + 1) := by
  set buf := dsm.new_tokens_host with hbufdef
  have ht : t < buf.length := by omega
  have hns : handle_stop_criteria maxSeq (add_new_token r (buf.getD t 0)).1 (buf.getD t 0)
      (add_new_token r (buf.getD t 0)).2 = ((add_new_token r (buf.getD t 0)).1, false) := by
    apply handle_stop_criteria_no_stop
    · simp [add_new_token, hend]
    · simp [add_new_token, hsw]
    · simp [add_new_token]; push_cast at hb1 ⊢; omega
    · simp [add_new_token]; omega
  have hacc := accept_drafts_spec maxSeq buf t drafts (add_new_token r (buf.getD t 0)).1 0
    (by simp [add_new_token, hend]) (by simp [add_new_token, hsw])
    (by simp [add_new_token]; push_cast at hb1 ⊢; omega)
    (by simp [add_new_token]; omega)
    (by omega)
  simp only [Nat.add_zero, Nat.zero_add] at hacc
  have htk : (buf.drop t).take (matchLen drafts (buf.drop t) + 1)
      = buf.getD t 0 :: (buf.drop (t + 1)).take (matchLen drafts (buf.drop t)) := by
    rw [drop_cons_of_lt buf t ht, List.take_succ_cons]
  unfold process_extend_request
  rw [hd]
  simp only [Option.getD_some]
  rw [if_pos hst]
  dsimp only
  rw [hns]
  dsimp only
  rw [hacc]
  dsimp only
  refine ⟨?_, rfl, rfl, ?_, ?_, rfl⟩
  · rw [handle_logits_tokens, htk]
    simp [add_new_token, List.append_assoc]
  · obtain ⟨sl, hlsh⟩ := handle_logits_shape dsm t _ (matchLen drafts (buf.drop t))
    rw [hlsh]
    simp [add_new_token]
  · rw [handle_logits_slices]
    simp [add_new_token]

/-- C1: for an in-progress extend request whose stop criteria cannot fire in
this step, draft tokens are accepted in order exactly while each draft equals
the corresponding buffer-produced token; with k accepted drafts exactly the
first k + 1 buffer tokens from the row offset of the request are committed, the
recorded accepted count is k, the recorded rewind length is the allocated
draft capacity minus k, buffer tokens past the mismatch are discarded, and
the running row offset advances by 1 + len(draft_tokens) regardless of k. -/
theorem c1_draft_acceptance (maxSeq : Nat) (dsm : DecoderStateModel) (t : Nat)
    (r : LlmRequest) (drafts : List Int)
    (hd : r.py_draft_tokens = some drafts)
    (hst : r.state ≠ LlmRequestState.GENERATION_COMPLETE)
    (hend : r.py_end_id = none)
    (hsw : r.py_stop_words_list = none)
    (hb1 : (r.tokens.length : Int) + drafts.length + 1 - (r.py_orig_prompt_len : Int)
        < (r.py_max_new_tokens : Int))
    (hb2 : r.tokens.length + drafts.length + 1 < maxSeq)
    (hbuf : t + drafts.length < dsm.new_tokens_host.length) :
    (process_extend_request maxSeq dsm t r).1.tokens
        = r.tokens ++ (dsm.new_tokens_host.drop t).take
            (matchLen drafts (dsm.new_tokens_host.drop t) + 1)
    ∧ (process_extend_request maxSeq dsm t r).1.py_num_accepted_draft_tokens
        = matchLen drafts (dsm.new_tokens_host.drop t)
    ∧ (process_extend_request maxSeq dsm t r).1.py_rewind_len
        = (r.py_draft_pages_allocated : Int)
            - (matchLen drafts (dsm.new_tokens_host.drop t) : Int)
    ∧ (process_extend_request maxSeq dsm t r).2 = t + (drafts.length + 1) :=
  have h := process_extend_request_spec maxSeq dsm t r drafts hd hst hend hsw hb1 hb2 hbuf
  ⟨h.1, h.2.1, h.2.2.1, h.2.2.2.2.2⟩

def rC1 : LlmRequest :=
  { py_max_new_tokens := 100, py_draft_tokens := some [1, 2, 3],
    py_draft_pages_allocated := 3 }

theorem c1_witness :
    (rC1.py_draft_tokens = some [1, 2, 3]
      ∧ rC1.state ≠ LlmRequestState.GENERATION_COMPLETE
      ∧ matchLen [1, 2, 3] (([1, 2, 7, 9] : List Int).drop 0) = 2)
    ∧ ((process_extend_request 50 { new_tokens_host := [1, 2, 7, 9] } 0 rC1).1.tokens
        = rC1.tokens ++ (([1, 2, 7, 9] : List Int).drop 0).take
            (matchLen [1, 2, 3] (([1, 2, 7, 9] : List Int).drop 0) + 1)
      ∧ (process_extend_request 50 { new_tokens_host := [1, 2, 7, 9] } 0
            rC1).1.py_num_accepted_draft_tokens
          = matchLen [1, 2, 3] (([1, 2, 7, 9] : List Int).drop 0)
      ∧ (process_extend_request 50 { new_tokens_host := [1, 2, 7, 9] } 0 rC1).1.py_rewind_len
          = (rC1.py_draft_pages_allocated : Int)
              - (matchLen [1, 2, 3] (([1, 2, 7, 9] : List Int).drop 0) : Int)
      ∧ (process_extend_request 50 { new_tokens_host := [1, 2, 7, 9] } 0 rC1).2
          = 0 + (([1, 2, 3] : List Int).length + 1)) :=
  ⟨⟨rfl, by decide, by decide⟩,
    c1_draft_acceptance 50 { new_tokens_host := [1, 2, 7, 9] } 0 rC1 [1, 2, 3]
      rfl (by decide) rfl rfl (by decide) (by decide) (by decide)⟩

def rC9 : LlmRequest :=
  { py_max_new_tokens := 100, py_draft_tokens := some [5],
    py_draft_pages_allocated := 1, py_return_generation_logits := true }

/-- C9 counterexample: an extend request with one draft token that is
accepted, so two tokens are committed (k + 1 = 2 with k = 1), while the
recorded generation-logits span is (0, 1), covering only one row rather than
the two rows of committed tokens the claim prescribes. -/
theorem c9_counterexample :
    (process_extend_request 100 { new_tokens_host := [5, 6], has_logits := true }
        0 rC9).1.tokens = [5, 6]
    ∧ (process_extend_request 100 { new_tokens_host := [5, 6], has_logits := true }
        0 rC9).1.py_num_accepted_draft_tokens = 1
    ∧ (process_extend_request 100 { new_tokens_host := [5, 6], has_logits := true }
        0 rC9).1.generation_logits_slices = [(0, 1)]
    ∧ (process_extend_request 100 { new_tokens_host := [5, 6], has_logits := true }
        0 rC9).1.generation_logits_slices ≠ [(0, 2)] := by
  refine ⟨by decide, by decide, by decide, by decide⟩

/-- C9 amended: when update_requests captures generation logits for an extend
request that accepted k draft tokens, the appended slice starts at the
row offset of the request but covers only k rows, the count passed to
handle_logits, even though k + 1 tokens were committed; in particular for
k = 0 the captured slice is empty although one token was committed. -/
theorem c9_generation_logits_slice (maxSeq : Nat) (dsm : DecoderStateModel) (t : Nat)
    (r : LlmRequest) (drafts : List Int)
    (hd : r.py_draft_tokens = some drafts)
    (hst : r.state ≠ LlmRequestState.GENERATION_COMPLETE)
    (hend : r.py_end_id = none)
    (hsw : r.py_stop_words_list = none)
    (hb1 : (r.tokens.length : Int) + drafts.length + 1 - (r.py_orig_prompt_len : Int)
        < (r.py_max_new_tokens : Int))
    (hb2 : r.tokens.length + drafts.length + 1 < maxSeq)
    (hbuf : t + drafts.length < dsm.new_tokens_host.length)
    (hlog : dsm.has_logits = true)
    (hret : r.py_return_generation_logits = true) :
    (process_extend_request maxSeq dsm t r).1.generation_logits_slices
        = r.generation_logits_slices
            ++ [(t, matchLen drafts (dsm.new_tokens_host.drop t))]
    ∧ (process_extend_request maxSeq dsm t r).1.tokens.length
        = r.tokens.length + (matchLen drafts (dsm.new_tokens_host.drop t) + 1) := by
  have h := process_extend_request_spec maxSeq dsm t r drafts hd hst hend hsw hb1 hb2 hbuf
  constructor
  · rw [h.2.2.2.2.1]
    simp [hlog, hret]
  · rw [h.1]
    have hle := matchLen_le_left drafts (dsm.new_tokens_host.drop t)
    simp only [List.length_append, List.length_take, List.length_drop]
    simp only [List.length_drop] at hle
    have hmin : min (matchLen drafts (dsm.new_tokens_host.drop t) + 1)
        (dsm.new_tokens_host.length - t)
        = matchLen drafts (dsm.new_tokens_host.drop t) + 1 :=
      Nat.min_eq_left (by omega)
    omega

theorem c9_witness :
    (rC9.py_draft_tokens = some [5]
      ∧ ({ new_tokens_host := [5, 6], has_logits := true } : DecoderStateModel).has_logits
          = true)
    ∧ ((process_extend_request 100 { new_tokens_host := [5, 6], has_logits := true }
          0 rC9).1.generation_logits_slices
        = rC9.generation_logits_slices
            ++ [(0, matchLen [5] (([5, 6] : List Int).drop 0))]
      ∧ (process_extend_request 100 { new_tokens_host := [5, 6], has_logits := true }
            0 rC9).1.tokens.length
          = rC9.tokens.length + (matchLen [5] (([5, 6] : List Int).drop 0) + 1)) :=
  ⟨⟨rfl, rfl⟩,
    c9_generation_logits_slice 100 { new_tokens_host := [5, 6], has_logits := true } 0 rC9 [5]
      rfl (by decide) rfl rfl (by decide) (by decide) (by decide) rfl rfl⟩

lemma early_stop_step_length (logits : List QTensor) :
    ∀ (idx : Nat) (rs : List LlmRequest), (early_stop_step logits idx rs).length = rs.length
  | _, [] => rfl
  | idx, _ :: rs => by
    simp [early_stop_step, early_stop_step_length logits (idx + 1) rs]

lemma early_stop_step_getD (logits : List QTensor) :
    ∀ (rs : List LlmRequest) (idx i : Nat), i < rs.length →
      (early_stop_step logits idx rs).getD i default
        = { rs.getD i default with
            state := .GENERATION_COMPLETE,
            finished_reason := .LENGTH,
            py_result_context_logits := (rs.getD i default).py_result_context_logits
              ++ [vocab_augment (logits.getD (idx + i) (QTensor.two []))] }
  | [], _, i, h => absurd h (by simp)
  | r :: rs, idx, 0, _ => by
    rw [early_stop_step]
    simp
  | r :: rs, idx, i + 1, h => by
    rw [early_stop_step]
    rw [List.getD_cons_succ, List.getD_cons_succ]
    have hrec := early_stop_step_getD logits rs (idx + 1) i (by simpa using h)
    have harith : idx + 1 + i = idx + (i + 1) := by omega
    rw [harith] at hrec
    exact hrec

/-- C5: EarlyStopDecoder.update_requests fails fast on any batch whose
generation-request collection is non-empty; when it is empty, every context
request is marked GENERATION_COMPLETE with finish reason LENGTH on beam 0
and its per-request score tensor, with a vocabulary axis added when the
per-request scores are 1-D, is appended to its context-logits output. -/
theorem c5_early_stop_decoder (logits : List QTensor) (sr : ScheduledRequests) :
    (sr.generation_requests ≠ [] →
      early_stop_update_requests logits sr
        = .error "assert not scheduled_requests.generation_requests")
    ∧ (sr.generation_requests = [] →
      ∃ out, early_stop_update_requests logits sr = .ok out
        ∧ out.length = sr.context_requests.length
        ∧ ∀ i, i < out.length →
            (out.getD i default).state = LlmRequestState.GENERATION_COMPLETE
            ∧ (out.getD i default).finished_reason = FinishReason.LENGTH
            ∧ (out.getD i default).py_result_context_logits
                = (sr.context_requests.getD i default).py_result_context_logits
                  ++ [vocab_augment (logits.getD i (QTensor.two []))]) := by
  constructor
  · intro h
    have he : sr.generation_requests.isEmpty = false := by
      cases hg : sr.generation_requests with
      | nil => exact absurd hg h
      | cons a l => rfl
    simp [early_stop_update_requests, he]
  · intro h
    have he : sr.generation_requests.isEmpty = true := by simp [h]
    refine ⟨early_stop_step logits 0 sr.context_requests,
      by simp [early_stop_update_requests, he],
      early_stop_step_length logits 0 sr.context_requests, ?_⟩
    intro i hi
    rw [early_stop_step_length] at hi
    have hg := early_stop_step_getD logits sr.context_requests 0 i hi
    rw [Nat.zero_add] at hg
    rw [hg]
    exact ⟨rfl, rfl, rfl⟩

def srGen1 : ScheduledRequests := { generation_requests := [reqLive] }

def srCtx1 : ScheduledRequests := { context_requests := [reqLive] }

theorem c5_witness :
    (early_stop_update_requests [] srGen1
        = .error "assert not scheduled_requests.generation_requests")
    ∧ (∃ out, early_stop_update_requests [QTensor.one [1, 2]] srCtx1 = .ok out
        ∧ out.length = srCtx1.context_requests.length
        ∧ ∀ i, i < out.length →
            (out.getD i default).state = LlmRequestState.GENERATION_COMPLETE
            ∧ (out.getD i default).finished_reason = FinishReason.LENGTH
            ∧ (out.getD i default).py_result_context_logits
                = (srCtx1.context_requests.getD i default).py_result_context_logits
                  ++ [vocab_augment (([QTensor.one [1, 2]].getD i (QTensor.two [])))]) :=
  ⟨(c5_early_stop_decoder [] srGen1).1 (by decide),
   (c5_early_stop_decoder [QTensor.one [1, 2]] srCtx1).2 rfl⟩

/-- C7: every token with nonzero probability in the restricted renormalized
top-k distribution has a score at least the k-th largest score of its row,
and the pair returned for a sampled row consists of the sampled index and
logf of the softmax probability of that index in the original unrestricted
row. -/
theorem c7_top_k_bound (e logf : ℚ → ℚ) (sample : List ℚ → Nat) (k : Nat) (row : List ℚ)
    (i : Nat) (hi : i < row.length)
    (hpos : 0 < (top_k_row_probs e k row).getD i 0) :
    kth_largest row k ≤ row.getD i 0
    ∧ top_k_sampling_batch e logf sample k (QTensor.two [row])
        = ([sample (top_k_row_probs e k row)],
           [logf ((softmaxQ e row).getD (sample (top_k_row_probs e k row)) 0)]) := by
  have hkey : row.getD i 0 < kth_largest row k → (top_k_row_probs e k row).getD i 0 = 0 := by
    intro hlt
    rw [List.getD_eq_getElem row 0 hi] at hlt
    unfold top_k_row_probs
    dsimp only
    rw [List.getD_eq_getElem _ 0 (by simpa using hi)]
    simp only [List.getElem_map]
    rw [if_pos hlt]
    exact zero_div _
  constructor
  · by_contra hlt
    push_neg at hlt
    rw [hkey hlt] at hpos
    exact lt_irrefl 0 hpos
  · rfl

theorem c7_witness :
    ((2 : Nat) < ([1, 2, 3] : List ℚ).length
      ∧ 0 < (top_k_row_probs (fun _ => 1) 2 [1, 2, 3]).getD 2 0)
    ∧ (kth_largest [1, 2, 3] 2 ≤ ([1, 2, 3] : List ℚ).getD 2 0
      ∧ top_k_sampling_batch (fun _ => 1) (fun x => x) (fun _ => 2) 2
            (QTensor.two [[1, 2, 3]])
          = ([2], [(softmaxQ (fun _ => 1) [1, 2, 3]).getD 2 0])) :=
  ⟨⟨by decide, by norm_num [top_k_row_probs, kth_largest, sortDesc, insertDesc]⟩,
   c7_top_k_bound (fun _ => 1) (fun x => x) (fun _ => 2) 2 [1, 2, 3] 2
     (by decide) (by norm_num [top_k_row_probs, kth_largest, sortDesc, insertDesc])⟩

/-- C8 counterexample: greedy_search_sampling_batch has no 1-D promotion
branch, so a 1-D score vector fails where the same scores given as a
1-by-vocabulary matrix succeed; the claimed promotion fails for the greedy
policy. -/
theorem c8_counterexample :
    greedy_search_sampling_batch (fun x => x) (fun x => x) (QTensor.one [1, 2])
      = .error "Dimension out of range: the input has no dim 1 to gather along"
    ∧ ∃ out, greedy_search_sampling_batch (fun x => x) (fun x => x) (QTensor.two [[1, 2]])
        = .ok out :=
  ⟨rfl, ⟨_, rfl⟩⟩

/-- C8 amended: top-k and top-p promote a 1-D input score vector to a
single-row matrix and return exactly the selection and log-probability of
the corresponding 1-by-vocabulary matrix input, while the greedy policy has
no promotion branch and always fails on 1-D input. -/
theorem c8_one_dim_promotion (e logf : ℚ → ℚ) (sample : List ℚ → Nat) (k : Nat) (p : ℚ)
    (v : List ℚ) :
    top_k_sampling_batch e logf sample k (QTensor.one v)
        = top_k_sampling_batch e logf sample k (QTensor.two [v])
    ∧ top_p_sampling_batch e logf sample p (QTensor.one v)
        = top_p_sampling_batch e logf sample p (QTensor.two [v])
    ∧ ∃ msg, greedy_search_sampling_batch e logf (QTensor.one v) = .error msg :=
  ⟨rfl, rfl, ⟨_, rfl⟩⟩

end TorchDecoderModel
